import Mathlib

/-!
Shallow embedding of `src/bitaware.py` (wnowicki/bitwise): a validated,
introspectable bitmask value over a closed set of named power-of-two flags.

Data model:
* a `Member` is one named constant of a FlagSet (the enumeration's
  `(name, value)` pair);
* a `FlagSet` is the list of declared members in declaration order;
* `BitAware` stores the validated integer and the optional FlagSet binding;
* Python exceptions are modelled by `PyError` inside `Except`;
* dynamically typed arguments are modelled by small sum types
  (`PyValue`, `ValInput`, `EqArg`) whose `other` constructor stands for a
  value of any non-integer type, carrying that type's name.

The enumeration machinery itself (`enum.IntFlag` / `EnumMeta`) is not part
of the repository's sources; where its behaviour decides a property
(member construction, truthiness of a FlagSet class, containment and
exact-value lookup) the corresponding definition is modelled from the
spec's words and says so in its doc comment.

A construction call `BitAware(value, flags)` is not the method
`BitAware.__init__` alone: `BitAware` subclasses `int` and declares no
`__new__`, so Python runs `int.__new__(cls, value, flags)` first. The
embedding therefore separates `BitAware.init` (the `__init__` method) from
`BitAware.call` (the full call, `int.__new__` dispatch included): a call
with a flags argument is rejected by `int.__new__` with a `TypeError`
before `__init__` can run, and a one-argument call performs the `int`
conversion of its argument (`int_new`) before `__init__` validates it.
-/

deriving instance DecidableEq for Except

/-- One declared constant of a FlagSet: its identifier and integer value. -/
structure Member where
  name : String
  value : Int
deriving DecidableEq

/-- A FlagSet: the declared members, in declaration order. -/
abbrev FlagSet := List Member

/-- Python exceptions surfaced by the module, by kind and message
(`LookupError` carries the integer whose lookup failed). -/
inductive PyError where
  | typeError (msg : String)
  | valueError (msg : String)
  | lookupError (v : Int)
deriving DecidableEq

/-- The dynamically typed `value` argument of a construction call,
classified by how Python's `int(x)` conversion treats it: a value of
type `int`; a non-int value that `int(x)` converts (a float, a numeric
string, an object with an `__index__` or `__trunc__` method), carrying
the integer it converts to; a string that `int(x)` cannot parse; or a
value of any other, non-convertible type (by type name). -/
inductive PyValue where
  | intV (n : Int)
  | intLike (typeName : String) (n : Int)
  | badStr (s : String)
  | other (typeName : String)
deriving DecidableEq

/-- Python's `name.startswith(pre)`: the characters of `pre` are a prefix
of those of `name` (stated over the character lists so that it evaluates
by kernel reduction). -/
def str_startswith (s pre : String) : Bool :=
  pre.data.isPrefixOf s.data

/-- Embedding of `BitFlagMeta.is_power_of_two`:
`n > 0 and (n & (n - 1)) == 0`. -/
def BitFlagMeta.is_power_of_two (n : Int) : Bool :=
  decide (0 < n) && (Int.land n (n - 1) == 0)

/-- Message of the `ValueError` raised by `BitFlagMeta.__new__`
(`f"Value {value} for '{name}' is not a power of 2"`; the quotes around
the name are elided). -/
def powMsg (name : String) (value : Int) : String :=
  "Value " ++ toString value ++ " for " ++ name ++ " is not a power of 2"

/-- The members the enumeration machinery creates from a classdict.
Modelled from the spec: on success the definition produces an enumeration
supporting iteration over all members in declaration order; the
underscore-prefixed names are implementation-reserved and are not members. -/
def enum_members (classdict : List (String × Int)) : FlagSet :=
  (classdict.filter fun p => !(str_startswith p.1 "_")).map
    fun p => { name := p.1, value := p.2 }

/-- Embedding of `BitFlagMeta.__new__`: scan the classdict in order and
raise on the first pair whose name does not start with `_` and whose value
is not a power of two; otherwise the FlagSet type is constructed. -/
def BitFlagMeta.new (classdict : List (String × Int)) : Except PyError FlagSet :=
  match classdict.find?
      (fun p => !(str_startswith p.1 "_") && !(BitFlagMeta.is_power_of_two p.2)) with
  | some p => Except.error (PyError.valueError (powMsg p.1 p.2))
  | none => Except.ok (enum_members classdict)

/-- Modelled from the spec: exact-value lookup `SomeFlagSet(v)` is
inherited from the enumeration machinery, which is not among the
repository's sources; per the spec it returns the matching member or
fails with `LookupError` when `v` is not exactly one of the declared
constants. -/
def FlagSet.call (F : FlagSet) (v : Int) : Except PyError Member :=
  match F.find? (fun m => m.value == v) with
  | some m => Except.ok m
  | none => Except.error (PyError.lookupError v)

/-- Modelled from the spec: membership `v in SomeFlagSet` is inherited
from the enumeration machinery; per the spec it holds exactly when `v`
exactly matches one declared member. -/
def FlagSet.containsVal (F : FlagSet) (v : Int) : Bool :=
  (F.find? (fun m => m.value == v)).isSome

/-- A BitAware value: the validated integer and the optional FlagSet it
is bound to (`self.value` and `self.flags`). -/
structure BitAware where
  value : Int
  flags : Option FlagSet
deriving DecidableEq

/-- Embedding of `BitAware.__sum_flags`: the sum of the values of all
members of the bound FlagSet. -/
def sum_flags (F : FlagSet) : Int :=
  (F.map Member.value).sum

/-- Message of the positivity `ValueError` of `BitAware.__init__` and
`BitAware.validate`. -/
def posMsg : String := "Value must be a positive integer."

/-- Message of the range `ValueError` of `BitAware.__init__`
(`f"Value {value} exceeds the possible flag setup."`). -/
def exceedsMsg (value : Int) : String :=
  "Value " ++ toString value ++ " exceeds the possible flag setup."

/-- Embedding of the method `BitAware.__init__` in isolation (the full
construction call, with the `int.__new__` dispatch that precedes the
method, is `BitAware.call`). The guard
`not isinstance(value, int) or value <= 0` raises the positivity
`ValueError` (evaluating the type test first), so every non-int value —
int-convertible or not — that reaches the method is rejected with it;
then `if flags and value > self.__sum_flags()` raises the range
`ValueError`. A FlagSet class passed as `flags` is truthy even with zero
members (`EnumMeta.__bool__`, outside the repository's sources; the
spec's §4.1 edge case states that an empty FlagSet bounds `value` by 0),
so the range check runs whenever `flags` is not `None`. -/
def BitAware.init : PyValue → Option FlagSet → Except PyError BitAware
  | PyValue.intV n, none =>
      if n ≤ 0 then Except.error (PyError.valueError posMsg)
      else Except.ok { value := n, flags := none }
  | PyValue.intV n, some F =>
      if n ≤ 0 then Except.error (PyError.valueError posMsg)
      else if sum_flags F < n then Except.error (PyError.valueError (exceedsMsg n))
      else Except.ok { value := n, flags := some F }
  | _, _ => Except.error (PyError.valueError posMsg)

/-- Message of the `ValueError` raised by `int(x)` on an unparseable
string (`invalid literal for int() with base 10: '...'`; the quotes
around the literal are elided). -/
def invalidLiteralMsg (s : String) : String :=
  "invalid literal for int() with base 10: " ++ s

/-- Message of the `TypeError` raised by `int(x)` on a value of a
non-convertible type. -/
def intConvMsg (typeName : String) : String :=
  "int() argument must be a string, a bytes-like object or a real number, not " ++
    typeName

/-- Message of the `TypeError` raised by `int.__new__` when a FlagSet
class is passed where the conversion base is expected (the quotes around
the metaclass name are elided). -/
def baseMsg : String :=
  "BitFlagMeta object cannot be interpreted as an integer"

/-- Embedding of `int.__new__(cls, value)` for a one-argument
construction call — Python runtime behaviour forced by
`class BitAware(int, ...)` declaring no `__new__` of its own: an `int`
is taken as is; an int-convertible non-integer converts; an unparseable
string raises the int-conversion `ValueError`; any other type raises
the int-conversion `TypeError`. -/
def int_new : PyValue → Except PyError Int
  | PyValue.intV n => Except.ok n
  | PyValue.intLike _ n => Except.ok n
  | PyValue.badStr s => Except.error (PyError.valueError (invalidLiteralMsg s))
  | PyValue.other t => Except.error (PyError.typeError (intConvMsg t))

/-- Embedding of the construction call `BitAware(value, flags)`
(`type.__call__`). `BitAware` subclasses `int` and declares no
`__new__`, so `int.__new__(cls, value, flags)` runs before `__init__`.
When a flags argument is present (positionally it is parsed as the
conversion base, as a keyword it is rejected as an invalid keyword),
`int.__new__` raises a `TypeError` — a FlagSet class cannot be
interpreted as an integer — and `__init__` never runs: no two-argument
construction ever succeeds. With one argument, `int.__new__` performs
the `int` conversion of `value` (`int_new`), and only if that succeeds
does `__init__` run, with the original argument and `flags = None`. -/
def BitAware.call (value : PyValue) (flags : Option FlagSet) : Except PyError BitAware :=
  match flags with
  | some _ => Except.error (PyError.typeError baseMsg)
  | none =>
      match int_new value with
      | Except.error e => Except.error e
      | Except.ok _ => BitAware.init value none

/-- Embedding of `BitAware.has`: `bool(self.value & flag)`; the argument
is any integer-valued object, taken here by its integer value. -/
def BitAware.has (b : BitAware) (flag : Int) : Bool :=
  Int.land b.value flag != 0

/-- Embedding of `BitAware.__int__`: the stored integer, unchanged. -/
def BitAware.toInt (b : BitAware) : Int :=
  b.value

/-- One element yielded by `BitAware.__iter__`: a FlagSet member when
bound, the raw integer when unbound. -/
inductive IterItem where
  | flagItem (m : Member)
  | intItem (n : Int)
deriving DecidableEq

/-- Embedding of `BitAware.__iter__`: when bound, yield each member of
the FlagSet, in declaration order, for which `has` holds; when unbound,
yield the raw value once. -/
def BitAware.iter (b : BitAware) : List IterItem :=
  match b.flags with
  | some F => (F.filter fun m => b.has m.value).map IterItem.flagItem
  | none => [IterItem.intItem b.value]

/-- The `other` operand of `BitAware.__eq__`: a BitAware, a plain
integer, or a value of any other type (by type name). -/
inductive EqArg where
  | baV (b : BitAware)
  | intV (n : Int)
  | other (typeName : String)
deriving DecidableEq

/-- Embedding of `BitAware.__eq__`: value equality against a BitAware or
a plain integer; `none` models the `NotImplemented` sentinel returned for
any other operand type. -/
def BitAware.eq (b : BitAware) : EqArg → Option Bool
  | EqArg.baV o => some (b.value == o.value)
  | EqArg.intV n => some (b.value == n)
  | EqArg.other _ => none

/-- Embedding of the list comprehension
`[flag.name for flag in self.flags if self.has(flag)]` of
`BitAware.__str__`: the names of the set members, in declaration order. -/
def flag_names (F : FlagSet) (v : Int) : List String :=
  (F.filter fun m => Int.land v m.value != 0).map Member.name

/-- Embedding of `BitAware.__str__`. The properties map
(`self.__class__.properties()`) is the reflectively derived
value-to-label dictionary; following the spec's §9 reframing it is
passed explicitly as an association list `P`. The label starts as the raw
value, is replaced by the member's name when the value is a member of the
FlagSet (membership and lookup as in `FlagSet.containsVal` /
`FlagSet.call`, modelled from the spec), and is finally replaced by the
properties entry when the value is a key of `P`. -/
def BitAware.str (P : List (Int × String)) (b : BitAware) : String :=
  match b.flags with
  | some F =>
      let label0 := toString b.value
      let label1 :=
        match F.find? (fun m => m.value == b.value) with
        | some m => m.name
        | none => label0
      let label2 :=
        match P.lookup b.value with
        | some s => s
        | none => label1
      label2 ++ " [" ++ String.intercalate ", " (flag_names F b.value) ++ "]"
  | none => toString b.value

/-- The input of `BitAware.validate`: an instance of the expected
BitAware class, a plain integer, or a value of any other type. -/
inductive ValInput where
  | instV (b : BitAware)
  | intV (n : Int)
  | other (typeName : String)
deriving DecidableEq

/-- Embedding of `BitAware.validate`: pass an instance through
unchanged; reject a non-integer with
`TypeError(f"Expected int, got {type(value).__name__}")`; reject a
non-positive integer; otherwise construct `cls(value)` — a one-argument
call with no flags argument, whose `int.__new__` step always succeeds
on the already-checked `int` and which therefore reduces to
`__init__`'s validation. -/
def BitAware.validate : ValInput → Except PyError BitAware
  | ValInput.instV b => Except.ok b
  | ValInput.other t => Except.error (PyError.typeError ("Expected int, got " ++ t))
  | ValInput.intV n =>
      if n ≤ 0 then Except.error (PyError.valueError posMsg)
      else BitAware.init (PyValue.intV n) none

/-- Whether a failed computation raised a `TypeError`. -/
def raisedTypeError {α : Type} : Except PyError α → Bool
  | Except.error (PyError.typeError _) => true
  | _ => false

/-- A natural number in the half-open dyadic interval `[2 ^ h, 2 ^ (h + 1))`
has bit `h` set. -/
theorem testBit_of_pow_le_of_lt {x h : ℕ} (h1 : 2 ^ h ≤ x) (h2 : x < 2 ^ (h + 1)) :
    x.testBit h = true := by
  rw [Nat.testBit_to_div_mod]
  have hpos : 0 < 2 ^ h := Nat.two_pow_pos h
  have hdiv : x / 2 ^ h = 1 := by
    have hle : 1 ≤ x / 2 ^ h := (Nat.le_div_iff_mul_le hpos).mpr (by simpa using h1)
    have hlt : x / 2 ^ h < 2 := by
      apply Nat.div_lt_of_lt_mul
      calc x < 2 ^ (h + 1) := h2
        _ = 2 ^ h * 2 := by ring
    omega
  simp [hdiv]

/-- The bit trick of `is_power_of_two`, over the naturals: for positive `m`,
`m &&& (m - 1) = 0` exactly when `m` is a power of two. -/
theorem land_pred_eq_zero_iff {m : ℕ} (hm : 0 < m) :
    m &&& (m - 1) = 0 ↔ ∃ k, m = 2 ^ k := by
  constructor
  · intro h0
    refine ⟨m.log2, ?_⟩
    by_contra hne
    have hle : 2 ^ m.log2 ≤ m := Nat.log2_self_le (by omega)
    have hlt : m < 2 ^ (m.log2 + 1) := Nat.lt_log2_self
    have h1 : 2 ^ m.log2 ≤ m - 1 := by omega
    have h2 : m - 1 < 2 ^ (m.log2 + 1) := by omega
    have tb1 : m.testBit m.log2 = true := testBit_of_pow_le_of_lt hle hlt
    have tb2 : (m - 1).testBit m.log2 = true := testBit_of_pow_le_of_lt h1 h2
    have hbit : (m &&& (m - 1)).testBit m.log2 = true := by
      rw [Nat.testBit_and, tb1, tb2]; rfl
    rw [h0, Nat.zero_testBit] at hbit
    exact absurd hbit (by simp)
  · rintro ⟨k, rfl⟩
    apply Nat.eq_of_testBit_eq
    intro i
    rw [Nat.testBit_and, Nat.testBit_two_pow, Nat.testBit_two_pow_sub_one,
      Nat.zero_testBit]
    by_cases hik : k = i <;> simp [hik]

/-- `Int.land` agrees with `Nat.land` on natural casts. -/
theorem land_natCast (a b : ℕ) :
    Int.land (a : ℤ) (b : ℤ) = ((a &&& b : ℕ) : ℤ) := rfl

/-- The code's `is_power_of_two` test accepts exactly the strictly positive
integer powers of two. -/
theorem is_power_of_two_iff (n : Int) :
    BitFlagMeta.is_power_of_two n = true ↔ 0 < n ∧ ∃ k : ℕ, n = 2 ^ k := by
  unfold BitFlagMeta.is_power_of_two
  rcases n with m | m
  · rw [Int.ofNat_eq_natCast]
    simp only [Bool.and_eq_true, decide_eq_true_eq, beq_iff_eq]
    constructor
    · rintro ⟨hpos, hland⟩
      have hm : 0 < m := by exact_mod_cast hpos
      refine ⟨hpos, ?_⟩
      have hsub : (m : ℤ) - 1 = ((m - 1 : ℕ) : ℤ) := by omega
      rw [hsub, land_natCast] at hland
      have hz : m &&& (m - 1) = 0 := by exact_mod_cast hland
      obtain ⟨k, hk⟩ := (land_pred_eq_zero_iff hm).mp hz
      exact ⟨k, by rw [hk]; push_cast; ring⟩
    · rintro ⟨hpos, k, hk⟩
      have hm : 0 < m := by exact_mod_cast hpos
      refine ⟨hpos, ?_⟩
      have hsub : (m : ℤ) - 1 = ((m - 1 : ℕ) : ℤ) := by omega
      rw [hsub, land_natCast]
      have hmk : m = 2 ^ k := by
        have hc : (m : ℤ) = ((2 ^ k : ℕ) : ℤ) := by rw [hk]; push_cast; ring
        exact_mod_cast hc
      have hz : m &&& (m - 1) = 0 := (land_pred_eq_zero_iff hm).mpr ⟨k, hmk⟩
      rw [hz]; rfl
  · have hneg : Int.negSucc m < 0 := Int.negSucc_lt_zero m
    constructor
    · intro h
      simp only [Bool.and_eq_true, decide_eq_true_eq] at h
      exact absurd h.1 (by omega)
    · rintro ⟨hpos, _⟩
      exact absurd hpos (by omega)

/-- `is_power_of_two` is false exactly for values that are non-positive or
not a power of two. -/
theorem is_power_of_two_eq_false_iff (v : Int) :
    BitFlagMeta.is_power_of_two v = false ↔ (v ≤ 0 ∨ ¬ ∃ k : ℕ, v = 2 ^ k) := by
  rw [← Bool.not_eq_true, is_power_of_two_iff]
  constructor
  · intro h
    by_cases hv : 0 < v
    · right; intro hk; exact h ⟨hv, hk⟩
    · left; omega
  · rintro (h | h) ⟨hv, hk⟩
    · omega
    · exact h hk

/-- C1 (code bug): the claim describes the intended range check of
construction, but in the program the two-argument call `BitAware(v, F)`
never succeeds — `int.__new__` raises a `TypeError` for every value and
every FlagSet, `__init__` never runs (so in particular `BitAware(3,
{A=1, C=4})` fails, not succeeds) — even though the `__init__`
validation the call can never reach implements exactly the claimed
bound-only check: success iff `v ≤ sum(F)`. -/
theorem C1_construction_bug (pv : PyValue) (F : FlagSet) (v : Int) :
    BitAware.call pv (some F) = Except.error (PyError.typeError baseMsg)
    ∧ (0 < v →
        (BitAware.init (PyValue.intV v) (some F) =
            Except.ok { value := v, flags := some F } ↔ v ≤ sum_flags F))
    ∧ BitAware.call (PyValue.intV 3) (some [⟨"A", 1⟩, ⟨"C", 4⟩]) =
        Except.error (PyError.typeError baseMsg) := by
  refine ⟨rfl, ?_, rfl⟩
  intro hv
  have hne : ¬ v ≤ 0 := by omega
  simp only [BitAware.init, if_neg hne]
  by_cases h : sum_flags F < v
  · simp only [if_pos h]
    constructor
    · intro heq; exact absurd heq (by simp)
    · intro hle; omega
  · simp only [if_neg h]
    constructor
    · intro _; omega
    · intro _; trivial

/-- C2 counterexample: the concrete one-argument construction call on
the unparseable string input fails inside `int.__new__` with the
int-conversion `ValueError("invalid literal for int() with base 10:
...")` — not a `TypeError` — and `__init__` never runs. -/
theorem C2_counterexample :
    BitAware.call (PyValue.badStr "str") none =
      Except.error (PyError.valueError (invalidLiteralMsg "str"))
    ∧ raisedTypeError (BitAware.call (PyValue.badStr "str") none) = false :=
  ⟨rfl, rfl⟩

/-- C2 as amended: for every non-integer input the adapter validation
hook fails with `TypeError("Expected int, got ...")`, its type check
coming before its positivity check (a non-positive integer instead
reaches the positivity `ValueError`); the construction call also fails
on every non-integer input, but not with that `TypeError` —
`int.__new__` runs first, raising the int-conversion `ValueError` on an
unparseable string and the int-conversion `TypeError` on any other
non-convertible type, while an int-convertible non-integer (a float, a
numeric string) passes `int.__new__` and then fails `__init__`'s
combined type-and-positivity check with `ValueError("Value must be a
positive integer.")`. -/
theorem C2_type_check (t s : String) (n m : Int) :
    BitAware.validate (ValInput.other t) =
      Except.error (PyError.typeError ("Expected int, got " ++ t))
    ∧ (n ≤ 0 → BitAware.validate (ValInput.intV n) =
        Except.error (PyError.valueError posMsg))
    ∧ BitAware.call (PyValue.badStr s) none =
        Except.error (PyError.valueError (invalidLiteralMsg s))
    ∧ BitAware.call (PyValue.other t) none =
        Except.error (PyError.typeError (intConvMsg t))
    ∧ BitAware.call (PyValue.intLike t m) none =
        Except.error (PyError.valueError posMsg) := by
  refine ⟨rfl, ?_, rfl, rfl, rfl⟩
  intro hn
  simp only [BitAware.validate, if_pos hn]

/-- C8 counterexample: at the concrete input `BitAware(0, {A=1})` the
program raises the `int.__new__` `TypeError` — the flags argument is
rejected before the positivity check can run — not the positivity
`ValueError` the claim states for every flags argument. -/
theorem C8_counterexample :
    BitAware.call (PyValue.intV 0) (some [⟨"A", 1⟩]) =
      Except.error (PyError.typeError baseMsg)
    ∧ BitAware.call (PyValue.intV 0) (some [⟨"A", 1⟩]) ≠
        Except.error (PyError.valueError posMsg) :=
  ⟨rfl, by decide⟩

/-- C8 as amended: with no flags argument every integer `v ≤ 0` (0, -5)
is rejected with the positivity `ValueError`; with a flags argument
construction fails for every value too, but with the `int.__new__`
`TypeError`, the positivity check being unreachable; and every
successfully constructed BitAware stores a strictly positive integer. -/
theorem C8_positivity (v : Int) (hv : v ≤ 0) :
    BitAware.call (PyValue.intV v) none = Except.error (PyError.valueError posMsg)
    ∧ (∀ (w : Int) (F : FlagSet), BitAware.call (PyValue.intV w) (some F) =
        Except.error (PyError.typeError baseMsg))
    ∧ ∀ (pv : PyValue) (fl : Option FlagSet) (b : BitAware),
        BitAware.call pv fl = Except.ok b → 0 < b.value := by
  refine ⟨?_, fun w F => rfl, ?_⟩
  · simp only [BitAware.call, int_new, BitAware.init, if_pos hv]
  · intro pv fl b h
    cases fl with
    | some F =>
      simp only [BitAware.call] at h
      exact absurd h (by simp)
    | none =>
      cases pv with
      | intV n =>
        simp only [BitAware.call, int_new, BitAware.init] at h
        split_ifs at h with h1
        have hb : { value := n, flags := none : BitAware } = b := by
          injection h
        subst hb
        show 0 < n
        omega
      | intLike t n =>
        simp only [BitAware.call, int_new, BitAware.init] at h
        exact absurd h (by simp)
      | badStr s =>
        simp only [BitAware.call, int_new] at h
        exact absurd h (by simp)
      | other t =>
        simp only [BitAware.call, int_new] at h
        exact absurd h (by simp)

/-- Witness for C8: `BitAware(-5)` fails with the positivity error. -/
theorem C8_positivity_witness :
    (-5 : Int) ≤ 0 ∧
      BitAware.call (PyValue.intV (-5)) none =
        Except.error (PyError.valueError posMsg) :=
  ⟨by decide, (C8_positivity (-5) (by decide)).1⟩

/-- C10: the adapter hook turns a plain positive integer into a newly
constructed, unbound BitAware (flags association `none`), so the
construction-time flag-sum range check is never applied on that path;
an input that is already a BitAware instance is returned unchanged,
its flags binding preserved. -/
theorem C10_validate (n : Int) (hn : 0 < n) (b : BitAware) :
    BitAware.validate (ValInput.intV n) = Except.ok { value := n, flags := none }
    ∧ BitAware.validate (ValInput.instV b) = Except.ok b := by
  have hne : ¬ n ≤ 0 := by omega
  constructor
  · simp only [BitAware.validate, BitAware.init, if_neg hne]
  · rfl

/-- Witness for C10: `validate 7` builds the unbound `BitAware 7`;
a bound instance passes through with its binding intact. -/
theorem C10_validate_witness :
    (0 : Int) < 7 ∧
      BitAware.validate (ValInput.intV 7) = Except.ok { value := 7, flags := none } ∧
      BitAware.validate (ValInput.instV { value := 5, flags := some [⟨"A", 1⟩] }) =
        Except.ok { value := 5, flags := some [⟨"A", 1⟩] } :=
  ⟨by decide, (C10_validate 7 (by decide) { value := 5, flags := some [⟨"A", 1⟩] }).1,
    (C10_validate 7 (by decide) { value := 5, flags := some [⟨"A", 1⟩] }).2⟩

/-- C3: defining a FlagSet fails — with the definition-time error naming
the offending constant and its value, and no FlagSet ever being
constructed — if and only if some declared pair whose name does not start
with the reserved `_` prefix has a value that is non-positive or not a
power of two; a definition of only positive powers of two (1, 2, 4, 8)
succeeds. -/
theorem C3_definition_validation (classdict : List (String × Int)) :
    ((∃ e, BitFlagMeta.new classdict = Except.error e) ↔
      ∃ p ∈ classdict, str_startswith p.1 "_" = false ∧
        (p.2 ≤ 0 ∨ ¬ ∃ k : ℕ, p.2 = 2 ^ k))
    ∧ (∀ p, classdict.find?
          (fun q => !(str_startswith q.1 "_") && !(BitFlagMeta.is_power_of_two q.2)) =
            some p →
        BitFlagMeta.new classdict =
          Except.error (PyError.valueError (powMsg p.1 p.2)))
    ∧ BitFlagMeta.new [("A", 1), ("B", 2), ("C", 4), ("D", 8)] =
        Except.ok [⟨"A", 1⟩, ⟨"B", 2⟩, ⟨"C", 4⟩, ⟨"D", 8⟩] := by
  have hpred : ∀ q : String × Int,
      ((!(str_startswith q.1 "_") && !(BitFlagMeta.is_power_of_two q.2)) = true) ↔
        (str_startswith q.1 "_" = false ∧ (q.2 ≤ 0 ∨ ¬ ∃ k : ℕ, q.2 = 2 ^ k)) := by
    intro q
    rw [Bool.and_eq_true, Bool.not_eq_true', Bool.not_eq_true',
      is_power_of_two_eq_false_iff]
  refine ⟨?_, ?_, by decide⟩
  · cases hfind : classdict.find?
        (fun q => !(str_startswith q.1 "_") && !(BitFlagMeta.is_power_of_two q.2)) with
    | some p =>
      constructor
      · intro _
        have hp := List.find?_some hfind
        have hmem := List.mem_of_find?_eq_some hfind
        exact ⟨p, hmem, (hpred p).mp hp⟩
      · intro _
        exact ⟨PyError.valueError (powMsg p.1 p.2), by
          simp only [BitFlagMeta.new, hfind]⟩
    | none =>
      constructor
      · rintro ⟨e, he⟩
        simp only [BitFlagMeta.new, hfind] at he
        exact absurd he (by simp)
      · rintro ⟨p, hmem, hbad⟩
        have hnone := List.find?_eq_none.mp hfind p hmem
        exact absurd ((hpred p).mpr hbad) hnone
  · intro p hfind
    simp only [BitFlagMeta.new, hfind]

/-- C4: for a bound BitAware, `to_string()` renders as
`"{label} [{comma-separated names of the set members, in declared
order}]"`, the label chosen in priority order — the properties-map entry
for the stored value (overriding everything), else the name of the
exactly matching member, else the decimal string of the raw value; with
flags `{A=1, B=2}` value 3 renders `"3 [A, B]"` and value 1 renders
`"A [A]"`; an unbound BitAware renders as the decimal string alone. -/
theorem C4_to_string (P : List (Int × String)) (v : Int) (F : FlagSet) :
    (∀ s, P.lookup v = some s →
        BitAware.str P { value := v, flags := some F } =
          s ++ " [" ++ String.intercalate ", " (flag_names F v) ++ "]")
    ∧ (P.lookup v = none →
        ∀ m, F.find? (fun q => q.value == v) = some m →
          BitAware.str P { value := v, flags := some F } =
            m.name ++ " [" ++ String.intercalate ", " (flag_names F v) ++ "]")
    ∧ (P.lookup v = none → F.find? (fun q => q.value == v) = none →
        BitAware.str P { value := v, flags := some F } =
          toString v ++ " [" ++ String.intercalate ", " (flag_names F v) ++ "]")
    ∧ BitAware.str [] { value := 3, flags := some [⟨"A", 1⟩, ⟨"B", 2⟩] } = "3 [A, B]"
    ∧ BitAware.str [] { value := 1, flags := some [⟨"A", 1⟩, ⟨"B", 2⟩] } = "A [A]"
    ∧ BitAware.str P { value := v, flags := none } = toString v := by
  refine ⟨?_, ?_, ?_, by decide, by decide, rfl⟩
  · intro s hs
    simp only [BitAware.str, hs]
  · intro hP m hm
    simp only [BitAware.str, hP, hm]
  · intro hP hm
    simp only [BitAware.str, hP, hm]

/-- C5: iterating a bound BitAware yields exactly the members of the
FlagSet whose bitwise AND with the stored value is non-zero, in the
FlagSet's declared order (a sublist of the member list, possibly empty);
iterating an unbound BitAware yields exactly the stored raw integer. -/
theorem C5_iteration (v : Int) (F : FlagSet) :
    BitAware.iter { value := v, flags := some F } =
      (F.filter fun m => Int.land v m.value != 0).map IterItem.flagItem
    ∧ List.Sublist (BitAware.iter { value := v, flags := some F })
        (F.map IterItem.flagItem)
    ∧ (∀ m : Member,
        IterItem.flagItem m ∈ BitAware.iter { value := v, flags := some F } ↔
          m ∈ F ∧ Int.land v m.value ≠ 0)
    ∧ BitAware.iter { value := v, flags := none } = [IterItem.intItem v] := by
  refine ⟨rfl, ?_, ?_, rfl⟩
  · exact List.Sublist.map IterItem.flagItem (List.filter_sublist F)
  · intro m
    simp [BitAware.iter, BitAware.has, List.mem_filter]

/-- C6: two BitAware values compare equal exactly when their stored
integers are equal, regardless of the bound FlagSets; a BitAware equals a
plain integer with the same value; comparison with any other type
returns the `NotImplemented` sentinel (`none`), never `false`. -/
theorem C6_equality (v w : Int) (Fv Fw : Option FlagSet) (t : String) :
    (BitAware.eq { value := v, flags := Fv }
        (EqArg.baV { value := w, flags := Fw }) = some true ↔ v = w)
    ∧ (BitAware.eq { value := v, flags := Fv } (EqArg.intV w) = some true ↔ v = w)
    ∧ BitAware.eq { value := v, flags := Fv } (EqArg.other t) = none
    ∧ BitAware.eq { value := v, flags := Fv } (EqArg.other t) ≠ some false := by
  refine ⟨?_, ?_, rfl, by simp [BitAware.eq]⟩
  · simp [BitAware.eq]
  · simp [BitAware.eq]

/-- C7: looking up an integer in a defined FlagSet returns a declared
member whose value is exactly the integer, succeeds exactly when such a
member exists, and fails with `LookupError` for every other integer —
including combinations of declared bits such as 3 for members `{1, 2}`. -/
theorem C7_lookup (F : FlagSet) (v : Int) :
    (∀ m, FlagSet.call F v = Except.ok m → m ∈ F ∧ m.value = v)
    ∧ ((∃ m, FlagSet.call F v = Except.ok m) ↔ ∃ m ∈ F, m.value = v)
    ∧ ((¬ ∃ m ∈ F, m.value = v) →
        FlagSet.call F v = Except.error (PyError.lookupError v))
    ∧ FlagSet.call [⟨"A", 1⟩, ⟨"B", 2⟩] 3 = Except.error (PyError.lookupError 3) := by
  refine ⟨?_, ?_, ?_, by decide⟩
  · intro m hm
    cases hfind : F.find? (fun q => q.value == v) with
    | some q =>
      simp only [FlagSet.call, hfind] at hm
      have hq := List.find?_some hfind
      have hqmem := List.mem_of_find?_eq_some hfind
      have hqv : q.value = v := by simpa using hq
      have hmq : q = m := by injection hm
      subst hmq
      exact ⟨hqmem, hqv⟩
    | none =>
      simp only [FlagSet.call, hfind] at hm
      exact absurd hm (by simp)
  · constructor
    · rintro ⟨m, hm⟩
      cases hfind : F.find? (fun q => q.value == v) with
      | some q =>
        have hq := List.find?_some hfind
        have hqmem := List.mem_of_find?_eq_some hfind
        exact ⟨q, hqmem, by simpa using hq⟩
      | none =>
        simp only [FlagSet.call, hfind] at hm
        exact absurd hm (by simp)
    · rintro ⟨m, hmem, hv⟩
      cases hfind : F.find? (fun q => q.value == v) with
      | some q => exact ⟨q, by simp only [FlagSet.call, hfind]⟩
      | none =>
        have hnone := List.find?_eq_none.mp hfind m hmem
        exact absurd (by simpa using hv) hnone
  · intro hno
    cases hfind : F.find? (fun q => q.value == v) with
    | some q =>
      have hq := List.find?_some hfind
      have hqmem := List.mem_of_find?_eq_some hfind
      exact absurd ⟨q, hqmem, by simpa using hq⟩ hno
    | none =>
      simp only [FlagSet.call, hfind]

/-- C9 counterexample: for the bound value `x` with stored integer 3 and
FlagSet `{A=1, B=2}`, the re-construction `BitAware(int(x), F)` the
claim says always succeeds is a two-argument call, so the program
raises the `int.__new__` `TypeError` instead of reproducing `x`. -/
theorem C9_counterexample :
    BitAware.call
        (PyValue.intV (BitAware.toInt { value := 3, flags := some [⟨"A", 1⟩, ⟨"B", 2⟩] }))
        (some [⟨"A", 1⟩, ⟨"B", 2⟩]) =
      Except.error (PyError.typeError baseMsg)
    ∧ BitAware.call
        (PyValue.intV (BitAware.toInt { value := 3, flags := some [⟨"A", 1⟩, ⟨"B", 2⟩] }))
        (some [⟨"A", 1⟩, ⟨"B", 2⟩]) ≠
      Except.ok { value := 3, flags := some [⟨"A", 1⟩, ⟨"B", 2⟩] } :=
  ⟨rfl, by decide⟩

/-- C9 as amended: for every successfully constructed BitAware — which
the program can only build unbound — `int()` returns the stored integer
unchanged, and re-constructing from that integer with the same (absent)
flags argument succeeds and reproduces an equal value; re-construction
with a FlagSet argument instead always fails with the `int.__new__`
`TypeError`. -/
theorem C9_roundtrip (v : Int) (b : BitAware)
    (h : BitAware.call (PyValue.intV v) none = Except.ok b) :
    BitAware.toInt b = b.value
    ∧ BitAware.call (PyValue.intV (BitAware.toInt b)) none = Except.ok b
    ∧ BitAware.eq b (EqArg.baV b) = some true
    ∧ ∀ F : FlagSet, BitAware.call (PyValue.intV (BitAware.toInt b)) (some F) =
        Except.error (PyError.typeError baseMsg) := by
  simp only [BitAware.call, int_new, BitAware.init] at h
  split_ifs at h with h1
  have hb : { value := v, flags := none : BitAware } = b := by injection h
  subst hb
  refine ⟨rfl, ?_, by simp [BitAware.eq], fun F => rfl⟩
  simp only [BitAware.toInt, BitAware.call, int_new, BitAware.init, if_neg h1]

/-- Witness for C9: the unbound round-trip at `BitAware(9)`. -/
theorem C9_roundtrip_witness :
    BitAware.call (PyValue.intV (BitAware.toInt { value := 9, flags := none })) none =
      Except.ok { value := 9, flags := none } :=
  (C9_roundtrip 9 { value := 9, flags := none } (by decide)).2.1
